import Mathlib

/-!
# Shallow embedding of the InnerTube response parser

This development embeds the response parser of the repository (the module
holding `parseResponse`, `parseItem`, `parseArray`, `parseCommand`,
`applyMutations`, `applyCommentsMutations`, `sanitizeClassName`, the memo
machinery and the error reporter) and proves the specification claims about
it.

Modelling conventions:
* Raw JSON-ish payloads are the inductive `Raw`; an absent value
  (`undefined`) is `Option.none` at the use sites.
* A thrown JS exception is `Except.error`; the error value carries the
  parser state at the throw site because the error reporter's effects
  (a log of emitted events) survive a throw.
* The process-global error handler is modelled as an event log in the
  parser state (`PState.errors`); the default handler only logs, and
  replacement handlers are outside the parser, so an emitted event is
  simply appended.
* The node-class registry and the runtime stub generator live in other
  files of the repository (only their call sites are in the parser);
  they are modelled as an abstract environment `Env` quantified over in
  every theorem.
-/

namespace YTParser

/-- A raw InnerTube value: primitive, ordered list, or ordered key/value
mapping (JS objects preserve insertion order). -/
inductive Raw where
  | str (s : String)
  | num (n : Int)
  | bool (b : Bool)
  | arr (items : List Raw)
  | obj (entries : List (String × Raw))

/-- JS truthiness of a raw value; objects and arrays are always truthy. -/
def Raw.truthy : Raw → Bool
  | .str s => s != ""
  | .num n => n != 0
  | .bool b => b
  | .arr _ => true
  | .obj _ => true

/-- Property access `r[k]`: the first entry of an object with key `k`,
`undefined` (`none`) otherwise. -/
def Raw.get (r : Raw) (k : String) : Option Raw :=
  match r with
  | .obj entries => (entries.find? (fun e => e.1 == k)).map (·.2)
  | _ => none

/-- Optional-chaining access `r?.k`. -/
def Raw.getO (r : Option Raw) (k : String) : Option Raw :=
  r.bind (fun v => v.get k)

/-- Truthiness of a possibly absent value (`undefined` is falsy). -/
def truthyO : Option Raw → Bool
  | some v => v.truthy
  | none => false

/-- `Object.keys` together with the values: the entries of an object in
declared order, `[]` for non-objects. -/
def Raw.entriesOf : Raw → List (String × Raw)
  | .obj entries => entries
  | _ => []

/-- The `expected` payload of a typecheck event: the source stores either a
single type tag or a list of tags depending on how `validTypes` was passed. -/
inductive Expected where
  | one (tag : String)
  | many (tags : List String)

/-- The categorized events delivered to the parser error handler
(`ParserError` in the source).  `class_not_found` / `class_changed` carry
introspected key info in the source; the stub generator is not part of the
parser module, so only the class name is modelled here. -/
inductive ParserError where
  | parse (classname : String) (classdata : Raw)
  | typecheck (classname : String) (classdata : Raw) (expected : Expected)
  | mutation_data_missing (classname : String)
  | mutation_data_invalid (total : Nat) (failed : Nat) (titles : List String)
  | class_not_found (classname : String)
  | class_changed (classname : String)

/-- A typed node.  `type_tag` is the static `type` of the node's class.
Beyond the generic payload, the structure carries the fields of the two
node classes the mutation passes read and write.
Modelled from the spec: the classes `MusicMultiSelectMenuItem`
(`form_item_entity_key`, `title`, writable `selected`) and `CommentView`
(the four stored entity keys and its `applyMutations` method, which
receives four possibly-absent payloads) are not under src/, so their
fields are carried abstractly here; `applied_*` record what
`CommentView.applyMutations` received. -/
structure YTNode where
  type_tag : String
  data : Raw := .obj []
  form_item_entity_key : String := ""
  title : String := ""
  selected : Option Raw := none
  key_comment : String := ""
  key_toolbar_state : String := ""
  key_toolbar_surface : String := ""
  key_comment_surface : String := ""
  applied_comment : Option Raw := none
  applied_toolbar_state : Option Raw := none
  applied_toolbar_surface : Option Raw := none
  applied_comment_surface : Option Raw := none

/-- The per-section scratch index: an insertion-ordered map from class name
to the nodes recorded under it (the source's `Memo extends Map<string,
YTNode[]>`). -/
abbrev Memo := List (String × List YTNode)

/-- `Map#get`. -/
def memoGet (m : Memo) (k : String) : Option (List YTNode) :=
  (m.find? (fun e => e.1 == k)).map (·.2)

/-- `Map#set`: overwrite in place if the key exists, append otherwise. -/
def memoSet (m : Memo) (k : String) (v : List YTNode) : Memo :=
  if m.any (fun e => e.1 == k) then
    m.map (fun e => if e.1 == k then (k, v) else e)
  else
    m ++ [(k, v)]

/-- Modelled from the spec: `Memo.getType` lives in `helpers.ts`, which is
not under src/.  Per §4.B it returns the recorded nodes whose `type_tag`
matches, preserving insertion order. -/
def memoGetType (m : Memo) (tag : String) : List YTNode :=
  ((m.map (·.2)).flatten).filter (fun n => n.type_tag == tag)

/-- Parser state: the module-global active memo (`MEMO`, `null` when no
section is active) and the log of events the error handler received. -/
structure PState where
  memo : Option Memo := none
  errors : List ParserError := []

/-- A thrown exception: its message plus the state at the throw site. -/
abbrev Thrown := String × PState

/-- Route an event through the error reporter (fire-and-forget). -/
def emit (s : PState) (e : ParserError) : PState :=
  { s with errors := s.errors ++ [e] }

/-- `_clearMemo`. -/
def clearMemo (s : PState) : PState := { s with memo := none }

/-- `_createMemo`. -/
def createMemo (s : PState) : PState := { s with memo := some [] }

/-- The memo effect of `_addToMemo`: recording into an absent memo is
silently skipped; otherwise start or extend the class's list. -/
def memoRecord (classname : String) (result : YTNode) : Option Memo → Option Memo
  | none => none
  | some m =>
    match memoGet m classname with
    | none => some (memoSet m classname [result])
    | some list => some (memoSet m classname (list ++ [result]))

/-- `_addToMemo`: silently a no-op when no memo is active. -/
def addToMemo (classname : String) (result : YTNode) (s : PState) : PState :=
  { s with memo := memoRecord classname result s.memo }

/-- `_getMemo`: throws when called before `_createMemo`. -/
def getMemo (s : PState) : Except Thrown Memo :=
  match s.memo with
  | none => .error ("Parser#getMemo() called before Parser#createMemo()", s)
  | some m => .ok m

/-- The hard-coded `IGNORED_LIST`. -/
def IGNORED_LIST : List String :=
  ["AdSlot", "DisplayAd", "SearchPyv", "MealbarPromo", "PrimetimePromo",
   "PromotedSparklesWeb", "CompactPromotedVideo", "BrandVideoShelf",
   "BrandVideoSingleton", "StatementBanner", "GuideSigninPromo",
   "AdsEngagementPanelContent", "MiniGameCardView"]

/-- `shouldIgnore`. -/
def shouldIgnore (classname : String) : Bool :=
  IGNORED_LIST.contains classname

/-- One global left-to-right pass of JS `String.replace(/p₁|p₂|…/g, rᵢ)`
restricted to literal alternatives: at each position the first alternative
that matches is replaced and scanning resumes after the matched text;
replaced output is never rescanned.  Fueled by the string length: each
step consumes one unit of fuel and at least one character, so the fuel
never runs out on the initial call. -/
def replacePass (alts : List (List Char × List Char)) : Nat → List Char → List Char
  | 0, _ => []
  | _ + 1, [] => []
  | fuel + 1, c :: cs =>
    match alts.find? (fun a => !a.1.isEmpty && a.1.isPrefixOf (c :: cs)) with
    | some (pat, repl) => repl ++ replacePass alts fuel (List.drop (pat.length - 1) cs)
    | none => c :: replacePass alts fuel cs

/-- JS `String.replace` with a global alternation of literal patterns. -/
def replaceGlobal (alts : List (String × String)) (s : String) : String :=
  let cs := s.toList
  String.mk (replacePass (alts.map (fun a => (a.1.toList, a.2.toList))) cs.length cs)

/-- JS `String.trim`. -/
def jsTrim (s : String) : String :=
  String.mk (((s.toList.dropWhile Char.isWhitespace).reverse.dropWhile
    Char.isWhitespace).reverse)

/-- `input.charAt(0).toUpperCase() + input.slice(1)`. -/
def capFirst (s : String) : String :=
  match s.toList with
  | [] => ""
  | c :: cs => String.mk (c.toUpper :: cs)

/-- `sanitizeClassName`, translated from the source: capitalize the first
letter, one global pass removing `Renderer` and `Model`, one global pass
replacing `Radio` by `Mix`, then trim. -/
def sanitizeClassName (input : String) : String :=
  jsTrim (replaceGlobal [("Radio", "Mix")]
    (replaceGlobal [("Renderer", ""), ("Model", "")] (capFirst input)))

/-- The documented sanitization algorithm, written out step by step from
the spec's words (§3, Class name): (i) capitalize first letter; (ii)
remove substrings `Renderer` and `Model` anywhere (a global substitution);
(iii) replace `Radio` with `Mix`; (iv) trim. -/
def sanitizeSpec (k : String) : String :=
  let step1 := capFirst k
  let step2 := replaceGlobal [("Renderer", ""), ("Model", "")] step1
  let step3 := replaceGlobal [("Radio", "Mix")] step2
  jsTrim step3

/-- A node constructor as the parser sees it: the static `type` tag and
the construction behaviour (`Except.error` models a constructor throw). -/
structure NodeCtor where
  type : String
  construct : Raw → Except String YTNode

/-- The process-wide collaborators the parser module imports: the
node-class registry (`RUNTIME_NODES`) and the runtime stub generator
(`generateRuntimeClass` from `generator.ts`).
Modelled from the spec: `generator.ts` is not under src/.  Per §4.I the
generator introspects the sample body, reports `class_not_found` (or
`class_changed` on drift) through the error handler, and yields a
synthesized constructor; it is modelled as a function returning the
events it emits together with either a constructor or a thrown error.
(Its append-only registration side effect is invisible to a single
dispatch and is not tracked.) -/
structure Env where
  registry : String → Option NodeCtor
  gen : String → Raw → List ParserError × Except String NodeCtor

/-- `hasParser`. -/
def hasParser (env : Env) (classname : String) : Bool :=
  (env.registry classname).isSome

/-- `getParserByName`: throws `Module not found` on a missed lookup. -/
def getParserByName (env : Env) (classname : String) : Except String NodeCtor :=
  match env.registry classname with
  | some p => .ok p
  | none => .error ("Module not found: " ++ classname)

/-- The `validTypes` argument of `parseItem`: absent, a single
constructor, or an array of constructors.  Only the static `type` tags
take part in the filter, so the tags are what is carried. -/
inductive ValidTypes where
  | anyType
  | one (tag : String)
  | many (tags : List String)

/-- The dispatch step inside `parseItem`'s `try`:
`hasParser ? getParserByName : generateRuntimeClass`.  Events the
generator emits through the handler are appended to the state even when
the generator then throws. -/
def dispatchClass (env : Env) (classname : String) (body : Raw) (s : PState) :
    Except Unit NodeCtor × PState :=
  if hasParser env classname then
    match getParserByName env classname with
    | .ok tc => (.ok tc, s)
    | .error _ => (.error (), s)
  else
    let (evs, r) := env.gen classname body
    (match r with
     | .ok tc => .ok tc
     | .error _ => .error (), { s with errors := s.errors ++ evs })

/-- The `validTypes` filter, applied after dispatch: `some expected` when
the dispatched class's `type` fails the check (tag equality only, no
subtyping), `none` when it passes. -/
def typeFilter (vt : ValidTypes) (tc : NodeCtor) : Option Expected :=
  match vt with
  | .anyType => none
  | .one t => if tc.type == t then none else some (.one t)
  | .many ts => if ts.any (fun t => t == tc.type) then none else some (.many ts)

/-- `parseItem`, translated from the source.  Falsy or key-less input
yields `null`; the first key is sanitized; an ignored class yields `null`
silently; otherwise dispatch, optional type filter, construction and memo
recording all sit inside one `try`, whose `catch` emits a single `parse`
event and yields `null` — so `parseItem` never throws.  (For a truthy
non-object JS `Object.keys` would enumerate string indices; such inputs
are outside the `RawNode` contract and are modelled as having no keys.) -/
def parseItem (env : Env) (vt : ValidTypes) (data : Option Raw) (s : PState) :
    Option YTNode × PState :=
  match data with
  | none => (none, s)
  | some d =>
    if !d.truthy then (none, s)
    else
      match d.entriesOf with
      | [] => (none, s)
      | (k0, v0) :: _ =>
        let classname := sanitizeClassName k0
        if shouldIgnore classname then (none, s)
        else
          match dispatchClass env classname v0 s with
          | (.error _, s1) => (none, emit s1 (.parse classname v0))
          | (.ok tc, s1) =>
            match typeFilter vt tc with
            | some expected => (none, emit s1 (.typecheck classname v0 expected))
            | none =>
              match tc.construct v0 with
              | .error _ => (none, emit s1 (.parse classname v0))
              | .ok result => (some result, addToMemo classname result s1)

/-- The loop of `parseArray`: each element through `parseItem`, keeping
non-null results in source order. -/
def parseArrayGo (env : Env) (vt : ValidTypes) : List Raw → PState → List YTNode × PState
  | [], s => ([], s)
  | item :: rest, s =>
    let (r, s1) := parseItem env vt (some item) s
    let (rs, s2) := parseArrayGo env vt rest s1
    match r with
    | some n => (n :: rs, s2)
    | none => (rs, s2)

/-- `parseArray`: an array input is folded through `parseItem`; a falsy
input yields an empty observed array; a truthy non-array throws the
shape-mismatch `ParsingError`. -/
def parseArray (env : Env) (vt : ValidTypes) (data : Option Raw) (s : PState) :
    Except Thrown (List YTNode × PState) :=
  match data with
  | some (.arr items) => .ok (parseArrayGo env vt items s)
  | none => .ok ([], s)
  | some d =>
    if !d.truthy then .ok ([], s)
    else .error ("Expected array but got a single item", s)

/-- The poly-parsed result union (`SuperParsedResult`): a single
(possibly null) node or an observed array. -/
inductive SuperParsedResult where
  | single (node : Option YTNode)
  | many (nodes : List YTNode)

/-- `parse`: `null` on falsy input; an array is folded through
`parseItem` (with `requireArray` the source returns the bare observed
array, which coincides with the `many` variant in this model); a
non-array with `requireArray` throws; otherwise the wrapper is
item-parsed and wrapped as a single result. -/
def parse (env : Env) (data : Option Raw) (requireArray : Bool) (vt : ValidTypes)
    (s : PState) : Except Thrown (Option SuperParsedResult × PState) :=
  match data with
  | none => .ok (none, s)
  | some d =>
    if !d.truthy then .ok (none, s)
    else
      match d with
      | .arr items =>
        let (rs, s1) := parseArrayGo env vt items s
        .ok (some (.many rs), s1)
      | _ =>
        if requireArray then .error ("Expected array but got a single item", s)
        else
          let (r, s1) := parseItem env vt (some d) s
          .ok (some (.single r), s1)

/-- Whether a key matches `/Command$/`, `/Endpoint$/` or `/Action$/`. -/
def isCommandKey (key : String) : Bool :=
  ["Command", "Endpoint", "Action"].any (fun suf => suf.toList.isSuffixOf key.toList)

/-- The key scan of `parseCommand`, one key at a time in declared order.
A non-matching key is skipped.  For a matching key: an ignored class
returns `undefined` at once; a registered class whose constructor
succeeds returns the node; a constructor throw is caught, one `parse`
event is emitted, and the scan continues with the remaining keys; an
unregistered class falls through to the remaining keys (no stub
synthesis and no event). -/
def parseCommandGo (env : Env) : List (String × Raw) → PState → Option YTNode × PState
  | [], s => (none, s)
  | (key, value) :: rest, s =>
    if isCommandKey key then
      let classname := sanitizeClassName key
      if shouldIgnore classname then (none, s)
      else
        if hasParser env classname then
          match getParserByName env classname with
          | .error _ => parseCommandGo env rest (emit s (.parse classname value))
          | .ok tc =>
            match tc.construct value with
            | .ok n => (some n, s)
            | .error _ => parseCommandGo env rest (emit s (.parse classname value))
        else parseCommandGo env rest s
    else parseCommandGo env rest s

/-- `parseCommand`: `Object.keys` runs inside its own try (non-objects
contribute no keys), then the scan over the keys. -/
def parseCommand (env : Env) (data : Raw) (s : PState) : Option YTNode × PState :=
  parseCommandGo env data.entriesOf s

/-- `mutation.payload?.musicFormBooleanChoice` of the first mutation whose
choice `id` strictly equals `key` (the source's `find` followed by the
re-read of the choice). -/
def findChoice (mutations : List Raw) (key : String) : Option Raw :=
  (mutations.find? (fun mu =>
      match (Raw.getO (mu.get "payload") "musicFormBooleanChoice").bind
          (fun c => c.get "id") with
      | some (.str s) => s == key
      | _ => false)).bind
    (fun mu => Raw.getO (mu.get "payload") "musicFormBooleanChoice")

/-- `choice?.selected !== undefined && choice?.opaqueToken`. -/
def choiceValid (choice : Option Raw) : Bool :=
  (Raw.getO choice "selected").isSome && truthyO (Raw.getO choice "opaqueToken")

/-- In-place effect of the multi-select pass on one node: a
`MusicMultiSelectMenuItem` whose matching choice is valid gets
`selected := choice.selected`; every other node is untouched. -/
def updateMenuItem (mutations : List Raw) (n : YTNode) : YTNode :=
  if n.type_tag == "MusicMultiSelectMenuItem" then
    let choice := findChoice mutations n.form_item_entity_key
    if choiceValid choice then { n with selected := Raw.getO choice "selected" }
    else n
  else n

/-- The memo holds references to the very objects a pass mutates in
place; in this value model an in-place update maps over all recorded
nodes. -/
def memoMapNodes (m : Memo) (f : YTNode → YTNode) : Memo :=
  m.map (fun e => (e.1, e.2.map f))

def quoteChar : Char := '\''

/-- The source pushes each failed title wrapped in single quotes. -/
def quoteTitle (t : String) : String :=
  String.singleton quoteChar ++ t ++ String.singleton quoteChar

/-- The titles queued for the aggregated `mutation_data_invalid` report:
the memo's `MusicMultiSelectMenuItem` nodes without a valid matching
choice, in memo order. -/
def invalidTitles (memo : Memo) (mutations : List Raw) : List String :=
  ((memoGetType memo "MusicMultiSelectMenuItem").filter
    (fun n => !choiceValid (findChoice mutations n.form_item_entity_key))).map
    (fun n => quoteTitle n.title)

/-- The heat-map filter: `payload?.macroMarkersListEntity` truthy and its
`markersList?.markerType === 'MARKER_TYPE_HEATMAP'`. -/
def isHeatMapMutation (mu : Raw) : Bool :=
  truthyO (Raw.getO (mu.get "payload") "macroMarkersListEntity") &&
  (match (Raw.getO (Raw.getO (mu.get "payload") "macroMarkersListEntity")
      "markersList").bind (fun ml => ml.get "markerType") with
   | some (.str s) => s == "MARKER_TYPE_HEATMAP"
   | _ => false)

/-- The heat-map-filtered mutations (empty when the list is absent). -/
def heatMapMutations (mutations : Option (List Raw)) : List Raw :=
  match mutations with
  | some muts => muts.filter isHeatMapMutation
  | none => []

/-- Modelled from the spec: the `MacroMarkersListEntity` class is not
under src/; constructing the heat-map entity is modelled as a node of
that tag carrying the `macroMarkersListEntity` payload. -/
def mkMacroMarkersListEntity (mu : Raw) : YTNode :=
  { type_tag := "MacroMarkersListEntity",
    data := (Raw.getO (mu.get "payload") "macroMarkersListEntity").getD (.obj []) }

/-- The heat-map pass: construct each entity and append it to the memo
under `MacroMarkersListEntity`, creating the list when absent. -/
def appendHeatMapEntities (m : Memo) (heat : List Raw) : Memo :=
  heat.foldl (fun acc mu =>
    match memoGet acc "MacroMarkersListEntity" with
    | none => memoSet acc "MacroMarkersListEntity" [mkMacroMarkersListEntity mu]
    | some list =>
      memoSet acc "MacroMarkersListEntity" (list ++ [mkMacroMarkersListEntity mu])) m

/-- `applyMutations`, translated from the source: the multi-select pass
(either the missing-data event, or the per-node updates plus at most one
aggregated invalid event), then the guarded heat-map pass. -/
def applyMutations (memo : Memo) (mutations : Option (List Raw)) (s : PState) :
    Memo × PState :=
  let music_multi_select_menu_items := memoGetType memo "MusicMultiSelectMenuItem"
  let (memo1, s1) :=
    if music_multi_select_menu_items.length > 0 && mutations.isNone then
      (memo, emit s (.mutation_data_missing "MusicMultiSelectMenuItem"))
    else
      let muts := mutations.getD []
      let memo' := memoMapNodes memo (updateMenuItem muts)
      let missing_or_invalid_mutations := invalidTitles memo muts
      let s' :=
        if missing_or_invalid_mutations.length > 0 then
          emit s (.mutation_data_invalid music_multi_select_menu_items.length
            missing_or_invalid_mutations.length missing_or_invalid_mutations)
        else s
      (memo', s')
  match mutations with
  | none => (memo1, s1)
  | some muts => (appendHeatMapEntities memo1 (muts.filter isHeatMapMutation), s1)

/-- The three key-correlated sub-payload lookups of the comments pass:
first mutation whose `payload?.<field>?.key` strictly equals `key`, then
that mutation's `payload?.<field>`. -/
def findCommentPayload (muts : List Raw) (field : String) (key : String) : Option Raw :=
  (muts.find? (fun mu =>
      match (Raw.getO (mu.get "payload") field).bind (fun p => p.get "key") with
      | some (.str s) => s == key
      | _ => false)).bind
    (fun mu => Raw.getO (mu.get "payload") field)

/-- The toolbar-surface lookup: first mutation whose top-level `entityKey`
equals `key`, then its `payload?.engagementToolbarSurfaceEntityPayload`. -/
def findToolbarSurface (muts : List Raw) (key : String) : Option Raw :=
  (muts.find? (fun mu =>
      match mu.get "entityKey" with
      | some (.str s) => s == key
      | _ => false)).bind
    (fun mu => Raw.getO (mu.get "payload") "engagementToolbarSurfaceEntityPayload")

/-- In-place effect of the comments pass on one `CommentView` node:
`comment_view.applyMutations(comment, toolbar_state, toolbar_surface,
comment_surface)` with the four looked-up payloads (any may be absent). -/
def updateCommentView (muts : List Raw) (n : YTNode) : YTNode :=
  if n.type_tag == "CommentView" then
    { n with
      applied_comment := findCommentPayload muts "commentEntityPayload" n.key_comment,
      applied_toolbar_state :=
        findCommentPayload muts "engagementToolbarStateEntityPayload" n.key_toolbar_state,
      applied_toolbar_surface := findToolbarSurface muts n.key_toolbar_surface,
      applied_comment_surface :=
        findCommentPayload muts "commentSurfaceEntityPayload" n.key_comment_surface }
  else n

/-- `applyCommentsMutations`, translated from the source.  Note the
control flow: when the memo holds comment views and the mutations list is
absent, the `mutation_data_missing` event is emitted, but — unlike
`applyMutations`, which has an `else` — the loop over the comment views
still runs and dereferences the absent list (`mutations.find`), which
throws a `TypeError` on its first iteration. -/
def applyCommentsMutations (memo : Memo) (mutations : Option (List Raw)) (s : PState) :
    Except Thrown (Memo × PState) :=
  let comment_view_items := memoGetType memo "CommentView"
  if comment_view_items.length > 0 then
    let s1 :=
      if mutations.isNone then emit s (.mutation_data_missing "CommentView") else s
    match mutations with
    | none =>
      .error ("TypeError: Cannot read properties of undefined (reading 'find')", s1)
    | some muts => .ok (memoMapNodes memo (updateCommentView muts), s1)
  else .ok (memo, s)

/-- `x ? x : null`: keep a raw value only when truthy. -/
def optTruthy (o : Option Raw) : Option Raw :=
  o.bind (fun v => if v.truthy then some v else none)

/-- The guarded keys of `parseLC` in source order, paired with the
continuation class each one constructs.
Modelled from the spec: the continuation classes live in
`continuations.js`, not under src/; construction is modelled as a typed
node carrying the container's payload (their own nested parsing is
abstracted). -/
def continuationKeyTags : List (String × String) :=
  [("itemSectionContinuation", "ItemSectionContinuation"),
   ("sectionListContinuation", "SectionListContinuation"),
   ("liveChatContinuation", "LiveChatContinuation"),
   ("musicPlaylistShelfContinuation", "MusicPlaylistShelfContinuation"),
   ("musicShelfContinuation", "MusicShelfContinuation"),
   ("gridContinuation", "GridContinuation"),
   ("playlistPanelContinuation", "PlaylistPanelContinuation"),
   ("continuationCommand", "ContinuationCommand")]

/-- `parseLC`: the first truthy container key wins; unknown keys yield
`null`. -/
def parseLC (data : Raw) : Option YTNode :=
  (continuationKeyTags.find? (fun p => truthyO (data.get p.1))).map
    (fun p => { type_tag := p.2, data := (data.get p.1).getD (.obj []) })

/-- `parseC`: only `timedContinuationData` is recognized. -/
def parseC (data : Raw) : Option YTNode :=
  match optTruthy (data.get "timedContinuationData") with
  | some v =>
    some { type_tag := "Continuation",
           data := .obj [("continuation", v), ("type", .str "timed")] }
  | none => none

/-- The guarded keys of `parseRR` in source order (same modelling of the
out-of-src constructors as `parseLC`). -/
def rrKeyTags : List (String × String) :=
  [("navigateAction", "NavigateAction"),
   ("showMiniplayerCommand", "ShowMiniplayerCommand"),
   ("reloadContinuationItemsCommand", "ReloadContinuationItemsCommand"),
   ("appendContinuationItemsAction", "AppendContinuationItemsAction"),
   ("openPopupAction", "OpenPopupAction")]

/-- `parseRR`: map each action through the key chain and filter out the
unmatched entries. -/
def parseRR (actions : List Raw) : List YTNode :=
  actions.filterMap (fun a =>
    (rrKeyTags.find? (fun p => truthyO (a.get p.1))).map
      (fun p => { type_tag := p.2, data := (a.get p.1).getD (.obj []) }))

/-- `delete action.clickTrackingParams` applied to one entry. -/
def removeCTP (a : Raw) : Raw :=
  match a with
  | .obj entries => .obj (entries.filter (fun e => e.1 != "clickTrackingParams"))
  | other => other

/-- `parseActions`: strip the click-tracking params from each entry of an
array before poly-parsing; a non-array is item-parsed and wrapped. -/
def parseActions (env : Env) (data : Raw) (s : PState) :
    Except Thrown (Option SuperParsedResult × PState) :=
  match data with
  | .arr l => parse env (some (.arr (l.map removeCTP))) false .anyType s
  | d =>
    let (r, s1) := parseItem env .anyType (some d) s
    .ok (some (.single r), s1)

/-- `data.frameworkUpdates?.entityBatchUpdate?.mutations` (typed
`RawNode[]`; a non-array value here is outside the type contract and is
treated as absent). -/
def mutationsOf (fw : Option Raw) : Option (List Raw) :=
  match Raw.getO (Raw.getO fw "entityBatchUpdate") "mutations" with
  | some (.arr l) => some l
  | _ => none

/-- Truthiness guard for a string-typed field. -/
def optTruthyStr (o : Option String) : Option String :=
  o.bind (fun v => if v != "" then some v else none)

/-- `v || dflt`. -/
def jsOr (v : Option Raw) (dflt : Raw) : Raw :=
  match v with
  | some x => if x.truthy then x else dflt
  | none => dflt

/-- JS `parseInt` (base 10): skip leading whitespace, optional sign,
leading digits; `NaN` (none) when no digit leads. -/
def jsParseInt (s : String) : Option Int :=
  let cs := s.toList.dropWhile Char.isWhitespace
  let signed : Int × List Char :=
    match cs with
    | '-' :: rest => (-1, rest)
    | '+' :: rest => (1, rest)
    | rest => (1, rest)
  let digits := signed.2.takeWhile Char.isDigit
  if digits.isEmpty then none
  else some (signed.1 * ((digits.foldl (fun acc c => acc * 10 + (c.toNat - 48)) 0 : Nat) : Int))

/-- Modelled from the spec: `Format` (not under src/) is constructed per
format entry; the per-response cipher-nonce cache only affects deciphering
internals, so a format is modelled as a typed node carrying its payload. -/
def parseFormats (formats : Option Raw) : List YTNode :=
  match formats with
  | some (.arr l) => l.map (fun f => { type_tag := "Format", data := f })
  | _ => []

/-- Modelled from the spec: `NavigationEndpoint` / `VideoDetails` (not
under src/) are constructed directly; modelled as typed nodes carrying
their payloads. -/
def mkDirectNode (tag : String) (v : Raw) : YTNode :=
  { type_tag := tag, data := v }

/-- The typed stream descriptor (§4.G).  The absolute `expires` timestamp
is wall-clock time (`Date.now()`) and is omitted from the model. -/
structure StreamingDataP where
  formats : List YTNode := []
  adaptive_formats : List YTNode := []
  dash_manifest_url : Option Raw := none
  hls_manifest_url : Option Raw := none
  server_abr_streaming_url : Option Raw := none

/-- The projected `playability_status` record. -/
structure PlayabilityStatusP where
  status : Option Raw := none
  reason : Raw := .str ""
  embeddable : Bool := false
  audio_only_playability : Option YTNode := none
  error_screen : Option YTNode := none

def projectStreamingData (sd : Raw) : StreamingDataP :=
  { formats := parseFormats (sd.get "formats"),
    adaptive_formats := parseFormats (sd.get "adaptiveFormats"),
    dash_manifest_url := sd.get "dashManifestUrl",
    hls_manifest_url := sd.get "hlsManifestUrl",
    server_abr_streaming_url := sd.get "serverAbrStreamingUrl" }

/-- `playbackTracking` projection; the two `videostats…Url.baseUrl`
accesses are not optional-chained, so an absent url object throws. -/
def projectPlaybackTracking (pt : Raw) (s : PState) :
    Except Thrown (Option Raw × Option Raw) :=
  match pt.get "videostatsWatchtimeUrl" with
  | none => .error ("TypeError: Cannot read properties of undefined (reading 'baseUrl')", s)
  | some w =>
    match pt.get "videostatsPlaybackUrl" with
    | none => .error ("TypeError: Cannot read properties of undefined (reading 'baseUrl')", s)
    | some p => .ok (w.get "baseUrl", p.get "baseUrl")

/-- `bgChallenge` projection; `bg.interpreterUrl` is dereferenced without
optional chaining. -/
def projectBgChallenge (bg : Raw) (s : PState) : Except Thrown Raw :=
  match bg.get "interpreterUrl" with
  | none => .error ("TypeError: Cannot read properties of undefined", s)
  | some iu =>
    .ok (.obj
      [("interpreter_url", .obj
        ((["privateDoNotAccessOrElseTrustedResourceUrlWrappedValue",
           "privateDoNotAccessOrElseSafeScriptWrappedValue"].filterMap
          (fun k => (iu.get k).map (fun v => (k, v)))))),
       ("interpreter_hash", (bg.get "interpreterHash").getD (.obj [])),
       ("program", (bg.get "program").getD (.obj [])),
       ("global_name", (bg.get "globalName").getD (.obj [])),
       ("client_experiments_state_blob", (bg.get "clientExperimentsStateBlob").getD (.obj []))])

/-- The raw top-level section fields of a response document, named as the
source reads them.  Fields the source types as arrays are lists; the rest
are raw values. -/
structure RawCore where
  contents : Option Raw := none
  onResponseReceivedActions : Option (List Raw) := none
  onResponseReceivedEndpoints : Option (List Raw) := none
  onResponseReceivedCommands : Option (List Raw) := none
  continuationContents : Option Raw := none
  actions : Option Raw := none
  liveChatItemContextMenuSupportedRenderers : Option Raw := none
  header : Option Raw := none
  sidebar : Option Raw := none
  items : Option Raw := none
  frameworkUpdates : Option Raw := none
  continuation : Option Raw := none
  continuationEndpoint : Option Raw := none
  metadata : Option Raw := none
  microformat : Option Raw := none
  overlay : Option Raw := none
  alerts : Option Raw := none
  refinements : Option Raw := none
  estimatedResults : Option String := none
  playerOverlays : Option Raw := none
  background : Option Raw := none
  playbackTracking : Option Raw := none
  playabilityStatus : Option Raw := none
  streamingData : Option Raw := none
  playerConfig : Option Raw := none
  currentVideoEndpoint : Option Raw := none
  endpoint : Option Raw := none
  captions : Option Raw := none
  videoDetails : Option Raw := none
  annotations : Option Raw := none
  storyboards : Option Raw := none
  endscreen : Option Raw := none
  cards : Option Raw := none
  engagementPanels : Option Raw := none
  bgChallenge : Option Raw := none
  challenge : Option Raw := none
  cpnInfo : Option Raw := none
  entries : Option (List Raw) := none
  targetId : Option String := none

/-- The parsed section fields (`parsed_data` minus the two nested
responses).  A `none` / empty field is one the source left unassigned;
array-valued sections are assigned only when non-empty.  `player_config`
is a pure defaulted data projection with no parser interaction and is
modelled as an opaque copy. -/
structure ParsedCore where
  contents : Option SuperParsedResult := none
  contents_memo : Option Memo := none
  on_response_received_actions : Option (List YTNode) := none
  on_response_received_actions_memo : Option Memo := none
  on_response_received_endpoints : Option (List YTNode) := none
  on_response_received_endpoints_memo : Option Memo := none
  on_response_received_commands : Option (List YTNode) := none
  on_response_received_commands_memo : Option Memo := none
  continuation_contents : Option YTNode := none
  continuation_contents_memo : Option Memo := none
  actions : Option SuperParsedResult := none
  actions_memo : Option Memo := none
  live_chat_item_context_menu_supported_renderers : Option YTNode := none
  live_chat_item_context_menu_supported_renderers_memo : Option Memo := none
  header : Option SuperParsedResult := none
  header_memo : Option Memo := none
  sidebar : Option YTNode := none
  sidebar_memo : Option Memo := none
  items : Option SuperParsedResult := none
  items_memo : Option Memo := none
  continuation : Option YTNode := none
  continuation_endpoint : Option YTNode := none
  metadata : Option SuperParsedResult := none
  microformat : Option YTNode := none
  overlay : Option YTNode := none
  alerts : List YTNode := []
  refinements : Option Raw := none
  estimated_results : Option Int := none
  player_overlays : Option SuperParsedResult := none
  background : Option YTNode := none
  playback_tracking : Option (Option Raw × Option Raw) := none
  playability_status : Option PlayabilityStatusP := none
  streaming_data : Option StreamingDataP := none
  player_config : Option Raw := none
  current_video_endpoint : Option YTNode := none
  endpoint : Option YTNode := none
  captions : Option YTNode := none
  video_details : Option YTNode := none
  annotations : List YTNode := []
  storyboards : Option YTNode := none
  endscreen : Option YTNode := none
  cards : Option YTNode := none
  engagement_panels : List YTNode := []
  bg_challenge : Option Raw := none
  challenge : Option Raw := none
  cpn_info : Option (Option Raw × Option Raw) := none
  entries : Option (List YTNode) := none
  target_id : Option String := none

/-- `parseResponse` minus the recursive re-entry: every section in source
order with the create/read/clear memo discipline, the two mutation passes
run against the (aliased) `contents` and `onResponseReceivedEndpoints`
section memos, then the memo-less trailing sections.  The `cpnInfo` /
`entries` / `targetId` projections follow the nested parses in the
source; they are pure and state-free, so computing them here preserves
behaviour.  (The source reads `items_memo` inside its `if (items)`, and
guards the comments pass with the always-truthy memo object; both
collapse to the unconditional forms below.) -/
def parseResponseCore (env : Env) (core : RawCore) (s : PState) :
    Except Thrown (ParsedCore × PState) := do
  let s := createMemo s
  let (contents, s) ← parse env core.contents false .anyType s
  let contents_memo ← getMemo s
  let s := clearMemo s
  let s := createMemo s
  let ora := core.onResponseReceivedActions.map parseRR
  let ora_memo ← getMemo s
  let s := clearMemo s
  let s := createMemo s
  let ore := core.onResponseReceivedEndpoints.map parseRR
  let ore_memo ← getMemo s
  let s := clearMemo s
  let s := createMemo s
  let orc := core.onResponseReceivedCommands.map parseRR
  let orc_memo ← getMemo s
  let s := clearMemo s
  let s := createMemo s
  let continuation_contents := (optTruthy core.continuationContents).bind parseLC
  let continuation_contents_memo ← getMemo s
  let s := clearMemo s
  let s := createMemo s
  let (acts, s) ← match optTruthy core.actions with
    | some a => parseActions env a s
    | none => pure (none, s)
  let actions_memo ← getMemo s
  let s := clearMemo s
  let s := createMemo s
  let (lc, s) := match optTruthy core.liveChatItemContextMenuSupportedRenderers with
    | some d => parseItem env .anyType (some d) s
    | none => (none, s)
  let lc_memo ← getMemo s
  let s := clearMemo s
  let s := createMemo s
  let (header, s) ← match optTruthy core.header with
    | some h => parse env (some h) false .anyType s
    | none => pure (none, s)
  let header_memo ← getMemo s
  let s := clearMemo s
  let s := createMemo s
  let (sidebar, s) := match optTruthy core.sidebar with
    | some d => parseItem env .anyType (some d) s
    | none => (none, s)
  let sidebar_memo ← getMemo s
  let s := clearMemo s
  let s := createMemo s
  let (items, s) ← parse env core.items false .anyType s
  let items_memo ← getMemo s
  let s := clearMemo s
  let muts := mutationsOf core.frameworkUpdates
  let (contents_memo, s) := applyMutations contents_memo muts s
  let (ore_memo, s) ← applyCommentsMutations ore_memo muts s
  let continuation := (optTruthy core.continuation).bind parseC
  let continuation_endpoint := (optTruthy core.continuationEndpoint).bind parseLC
  let (metadata, s) ← parse env core.metadata false .anyType s
  let (microformat, s) := parseItem env .anyType core.microformat s
  let (overlay, s) := parseItem env .anyType core.overlay s
  let (alerts, s) ← parseArray env (.many ["Alert", "AlertWithButton"]) core.alerts s
  let refinements := optTruthy core.refinements
  let estimated_results :=
    ((optTruthyStr core.estimatedResults).bind jsParseInt).bind
      (fun n => if n == 0 then none else some n)
  let (player_overlays, s) ← parse env core.playerOverlays false .anyType s
  let (background, s) := parseItem env (.one "MusicThumbnail") core.background s
  let (playback_tracking, s) ← match optTruthy core.playbackTracking with
    | some pt => (projectPlaybackTracking pt s).map (fun r => (some r, s))
    | none => pure (none, s)
  let (playability_status, s) : Option PlayabilityStatusP × PState :=
    match optTruthy core.playabilityStatus with
    | some ps =>
      let (aop, s1) :=
        parseItem env (.one "AudioOnlyPlayability") (ps.get "audioOnlyPlayability") s
      let (escr, s2) := parseItem env .anyType (ps.get "errorScreen") s1
      (some { status := ps.get "status",
              reason := jsOr (ps.get "reason") (.str ""),
              embeddable := truthyO (ps.get "playableInEmbed"),
              audio_only_playability := aop,
              error_screen := escr }, s2)
    | none => (none, s)
  let streaming_data := (optTruthy core.streamingData).map projectStreamingData
  let player_config := optTruthy core.playerConfig
  let current_video_endpoint :=
    (optTruthy core.currentVideoEndpoint).map (mkDirectNode "NavigationEndpoint")
  let endpoint := (optTruthy core.endpoint).map (mkDirectNode "NavigationEndpoint")
  let (captions, s) := parseItem env (.one "PlayerCaptionsTracklist") core.captions s
  let video_details := (optTruthy core.videoDetails).map (mkDirectNode "VideoDetails")
  let (annotations, s) ← parseArray env (.one "PlayerAnnotationsExpanded") core.annotations s
  let (storyboards, s) :=
    parseItem env (.many ["PlayerStoryboardSpec", "PlayerLiveStoryboardSpec"])
      core.storyboards s
  let (endscreen, s) := parseItem env (.one "Endscreen") core.endscreen s
  let (cards, s) := parseItem env (.one "CardCollection") core.cards s
  let (engagement_panels, s) ←
    parseArray env (.one "EngagementPanelSectionList") core.engagementPanels s
  let (bg_challenge, s) ← match optTruthy core.bgChallenge with
    | some bg => (projectBgChallenge bg s).map (fun r => (some r, s))
    | none => pure (none, s)
  let challenge := optTruthy core.challenge
  let cpn_info : Option (Option Raw × Option Raw) :=
    (optTruthy core.cpnInfo).map (fun ci => (ci.get "cpn", ci.get "cpnSource"))
  let entries : Option (List YTNode) :=
    core.entries.map (fun l => l.map (mkDirectNode "NavigationEndpoint"))
  let target_id := optTruthyStr core.targetId
  pure
    ({ contents := contents,
       contents_memo := if contents.isSome then some contents_memo else none,
       on_response_received_actions := ora,
       on_response_received_actions_memo := if ora.isSome then some ora_memo else none,
       on_response_received_endpoints := ore,
       on_response_received_endpoints_memo := if ore.isSome then some ore_memo else none,
       on_response_received_commands := orc,
       on_response_received_commands_memo := if orc.isSome then some orc_memo else none,
       continuation_contents := continuation_contents,
       continuation_contents_memo :=
         if continuation_contents.isSome then some continuation_contents_memo else none,
       actions := acts,
       actions_memo := if acts.isSome then some actions_memo else none,
       live_chat_item_context_menu_supported_renderers := lc,
       live_chat_item_context_menu_supported_renderers_memo :=
         if lc.isSome then some lc_memo else none,
       header := header,
       header_memo := if header.isSome then some header_memo else none,
       sidebar := sidebar,
       sidebar_memo := if sidebar.isSome then some sidebar_memo else none,
       items := items,
       items_memo := if items.isSome then some items_memo else none,
       continuation := continuation,
       continuation_endpoint := continuation_endpoint,
       metadata := metadata,
       microformat := microformat,
       overlay := overlay,
       alerts := alerts,
       refinements := refinements,
       estimated_results := estimated_results,
       player_overlays := player_overlays,
       background := background,
       playback_tracking := playback_tracking,
       playability_status := playability_status,
       streaming_data := streaming_data,
       player_config := player_config,
       current_video_endpoint := current_video_endpoint,
       endpoint := endpoint,
       captions := captions,
       video_details := video_details,
       annotations := annotations,
       storyboards := storyboards,
       endscreen := endscreen,
       cards := cards,
       engagement_panels := engagement_panels,
       bg_challenge := bg_challenge,
       challenge := challenge,
       cpn_info := cpn_info,
       entries := entries,
       target_id := target_id }, s)

/-- A raw response document: the section fields plus the optionally
nested `playerResponse` / `watchNextResponse` documents. -/
inductive RawResponse where
  | mk (core : RawCore) (playerResponse : Option RawResponse)
      (watchNextResponse : Option RawResponse)

/-- The parsed response: the section fields plus the recursively parsed
nested responses. -/
inductive ParsedResponse where
  | mk (core : ParsedCore) (player_response : Option ParsedResponse)
      (watch_next_response : Option ParsedResponse)

def ParsedResponse.core : ParsedResponse → ParsedCore
  | .mk c _ _ => c

def ParsedResponse.player_response : ParsedResponse → Option ParsedResponse
  | .mk _ p _ => p

def ParsedResponse.watch_next_response : ParsedResponse → Option ParsedResponse
  | .mk _ _ w => w

mutual

/-- `parseResponse`: the sections via `parseResponseCore`, then the
recursive re-entry for `playerResponse` / `watchNextResponse`, which the
source performs only after every memo section has been created, read and
cleared. -/
def parseResponse (env : Env) : RawResponse → PState → Except Thrown (ParsedResponse × PState)
  | .mk core pr wnr, s =>
    match parseResponseCore env core s with
    | .error t => .error t
    | .ok (pc, s1) =>
      match parseResponseOpt env pr s1 with
      | .error t => .error t
      | .ok (prP, s2) =>
        match parseResponseOpt env wnr s2 with
        | .error t => .error t
        | .ok (wnrP, s3) => .ok (.mk pc prP wnrP, s3)

/-- `data.playerResponse ? parseResponse(data.playerResponse) : skip`
— the guarded recursive re-entry for one optionally nested response. -/
def parseResponseOpt (env : Env) :
    Option RawResponse → PState → Except Thrown (Option ParsedResponse × PState)
  | none, s => .ok (none, s)
  | some r, s =>
    match parseResponse env r s with
    | .error t => .error t
    | .ok (p, s1) => .ok (some p, s1)

end

end YTParser

namespace YTParser

/-! ## Derived definitions used by the theorems -/

/-- The number of `parse`-category events in a log. -/
def countParseEvents (l : List ParserError) : Nat :=
  (l.filter (fun e => match e with | .parse _ _ => true | _ => false)).length

/-- The nodes a memo holds under one class name (empty when the key is
absent). -/
def keyNodes (m : Memo) (k : String) : List YTNode :=
  (memoGet m k).getD []

/-- Classification of one key during the `parseCommand` scan, for the
amended contract of C1. -/
inductive CmdStep where
  | skip
  | stopEmpty
  | ret (n : YTNode)
  | evt (e : ParserError)

/-- How `parseCommand` treats one key: non-matching or unregistered keys
are skipped; an ignored class stops the scan with an empty result; a
successful constructor stops the scan with its node; a throwing
constructor contributes one `parse` event and lets the scan continue. -/
def commandStep (env : Env) (key : String) (value : Raw) : CmdStep :=
  if isCommandKey key then
    let classname := sanitizeClassName key
    if shouldIgnore classname then .stopEmpty
    else
      match env.registry classname with
      | some tc =>
        match tc.construct value with
        | .ok n => .ret n
        | .error _ => .evt (.parse classname value)
      | none => .skip
  else .skip

/-- The amended scan contract: the first key classified `stopEmpty` or
`ret` decides the result; every `evt` key before it contributes its parse
event; `skip` keys contribute nothing; an undecided scan is empty. -/
def scanCommands (env : Env) : List (String × Raw) → Option YTNode × List ParserError
  | [] => (none, [])
  | (k, v) :: rest =>
    match commandStep env k v with
    | .stopEmpty => (none, [])
    | .ret n => (some n, [])
    | .evt e =>
      let r := scanCommands env rest
      (r.1, e :: r.2)
    | .skip => scanCommands env rest

/-! ## Concrete data used by counterexamples and witnesses -/

/-- An environment with an empty registry and a failing stub generator. -/
def envNull : Env :=
  { registry := fun _ => none,
    gen := fun c _ => ([ParserError.class_not_found c], .error "stub failed") }

/-- A bare `CommentView` node. -/
def cvNode : YTNode := { type_tag := "CommentView" }

/-- A memo holding one comment view, as after parsing a comments
response. -/
def memoCV : Memo := [("CommentView", [cvNode])]

/-- Two multi-select menu items, mirroring the spec's `{M1, M2}`
mutation example. -/
def m1Node : YTNode :=
  { type_tag := "MusicMultiSelectMenuItem", form_item_entity_key := "K1", title := "M1" }

def m2Node : YTNode :=
  { type_tag := "MusicMultiSelectMenuItem", form_item_entity_key := "K2", title := "M2" }

def memoMS : Memo := [("MusicMultiSelectMenuItem", [m1Node, m2Node])]

/-- A mutation carrying a valid boolean choice for `K1` only. -/
def choiceMutK1 : Raw :=
  .obj [("payload", .obj [("musicFormBooleanChoice",
    .obj [("id", .str "K1"), ("selected", .bool true), ("opaqueToken", .str "tok")])])]

/-- A heat-map mutation. -/
def heatMut : Raw :=
  .obj [("payload", .obj [("macroMarkersListEntity",
    .obj [("markersList", .obj [("markerType", .str "MARKER_TYPE_HEATMAP")])])])]

/-- The node returned by the second command key of the C1 counterexample. -/
def nodeBar : YTNode := { type_tag := "BarCommand" }

/-- Registry for the C1 counterexample: `FooCommand` throws,
`BarCommand` constructs. -/
def envTwoCommands : Env :=
  { registry := fun c =>
      if c = "FooCommand" then
        some { type := "FooCommand", construct := fun _ => .error "boom" }
      else if c = "BarCommand" then
        some { type := "BarCommand", construct := fun _ => .ok nodeBar }
      else none,
    gen := fun c _ => ([ParserError.class_not_found c], .error "stub failed") }

/-- A wrapper whose first command key throws and whose second succeeds. -/
def dataTwoCommands : Raw :=
  .obj [("fooCommand", .obj []), ("barCommand", .str "x")]

/-- Registry for the C6 counterexample: `Video`'s constructor throws even
though its tag is allowed. -/
def envThrowingVideo : Env :=
  { registry := fun c =>
      if c = "Video" then some { type := "Video", construct := fun _ => .error "boom" }
      else none,
    gen := fun c _ => ([ParserError.class_not_found c], .error "stub failed") }

/-- The node the C6/C7 witness registry constructs. -/
def videoNode : YTNode := { type_tag := "Video" }

/-- Registry with a succeeding `Video`, a mismatched `Shelf`, and a
throwing `Boom`. -/
def envMixed : Env :=
  { registry := fun c =>
      if c = "Video" then some { type := "Video", construct := fun _ => .ok videoNode }
      else if c = "Shelf" then some { type := "Shelf", construct := fun _ => .ok { type_tag := "Shelf" } }
      else if c = "Boom" then some { type := "Boom", construct := fun _ => .error "boom" }
      else none,
    gen := fun c _ => ([ParserError.class_not_found c], .error "stub failed") }

def videoWrapper : Raw := .obj [("video", .obj [])]

def boomWrapper : Raw := .obj [("boom", .obj [])]

def shelfWrapper : Raw := .obj [("shelf", .obj [])]

/-! ## Factoring lemmas: one `parseItem` call returns a state-independent
result, appends its events to the log, and applies a memo effect. -/

/-- The node `parseItem` returns, as a function of environment, filter
and input only. -/
def pIRes (env : Env) (vt : ValidTypes) (d : Option Raw) : Option YTNode :=
  (parseItem env vt d {}).1

/-- The events one `parseItem` call emits. -/
def pIEvs (env : Env) (vt : ValidTypes) (d : Option Raw) : List ParserError :=
  (parseItem env vt d {}).2.errors

/-- The classname / node pair `parseItem` records on success, extracted
by running the call from an empty active memo. -/
def pIRec (env : Env) (vt : ValidTypes) (d : Option Raw) : Option (String × YTNode) :=
  match (parseItem env vt d { memo := some [] }).2.memo with
  | some ((c, n :: _) :: _) => some (c, n)
  | _ => none

/-- The memo effect of one `parseItem` call. -/
def pIMemo (env : Env) (vt : ValidTypes) (d : Option Raw) (m : Option Memo) : Option Memo :=
  match pIRec env vt d with
  | some p => memoRecord p.1 p.2 m
  | none => m

theorem parseItem_eq (env : Env) (vt : ValidTypes) (d : Option Raw) (s : PState) :
    parseItem env vt d s =
      (pIRes env vt d,
       { memo := pIMemo env vt d s.memo, errors := s.errors ++ pIEvs env vt d }) := by
  cases d with
  | none => simp [parseItem, pIRes, pIEvs, pIMemo, pIRec]
  | some r =>
    cases htr : r.truthy with
    | false => simp [parseItem, pIRes, pIEvs, pIMemo, pIRec, htr]
    | true =>
      cases he : r.entriesOf with
      | nil => simp [parseItem, pIRes, pIEvs, pIMemo, pIRec, htr, he]
      | cons kv rest =>
        obtain ⟨k0, v0⟩ := kv
        cases hig : shouldIgnore (sanitizeClassName k0) with
        | true => simp [parseItem, pIRes, pIEvs, pIMemo, pIRec, htr, he, hig]
        | false =>
          cases hreg : env.registry (sanitizeClassName k0) with
          | none =>
            cases hgen : env.gen (sanitizeClassName k0) v0 with
            | mk evs rg =>
              cases rg with
              | error e =>
                simp [parseItem, dispatchClass, hasParser, getParserByName, emit,
                  pIRes, pIEvs, pIMemo, pIRec, htr, he, hig, hreg, hgen]
              | ok tc =>
                cases htf : typeFilter vt tc with
                | some expected =>
                  simp [parseItem, dispatchClass, hasParser, getParserByName, emit,
                    pIRes, pIEvs, pIMemo, pIRec, htr, he, hig, hreg, hgen, htf]
                | none =>
                  cases hc : tc.construct v0 with
                  | error e =>
                    simp [parseItem, dispatchClass, hasParser, getParserByName, emit,
                      pIRes, pIEvs, pIMemo, pIRec, htr, he, hig, hreg, hgen, htf, hc]
                  | ok result =>
                    simp [parseItem, dispatchClass, hasParser, getParserByName, emit,
                      addToMemo, memoRecord, memoGet, memoSet,
                      pIRes, pIEvs, pIMemo, pIRec, htr, he, hig, hreg, hgen, htf, hc]
          | some tc =>
            cases htf : typeFilter vt tc with
            | some expected =>
              simp [parseItem, dispatchClass, hasParser, getParserByName, emit,
                pIRes, pIEvs, pIMemo, pIRec, htr, he, hig, hreg, htf]
            | none =>
              cases hc : tc.construct v0 with
              | error e =>
                simp [parseItem, dispatchClass, hasParser, getParserByName, emit,
                  pIRes, pIEvs, pIMemo, pIRec, htr, he, hig, hreg, htf, hc]
              | ok result =>
                simp [parseItem, dispatchClass, hasParser, getParserByName, emit,
                  addToMemo, memoRecord, memoGet, memoSet,
                  pIRes, pIEvs, pIMemo, pIRec, htr, he, hig, hreg, htf, hc]

theorem parseItem_fst (env : Env) (vt : ValidTypes) (d : Option Raw) (s : PState) :
    (parseItem env vt d s).1 = pIRes env vt d := by rw [parseItem_eq]

theorem parseItem_errors (env : Env) (vt : ValidTypes) (d : Option Raw) (s : PState) :
    (parseItem env vt d s).2.errors = s.errors ++ pIEvs env vt d := by rw [parseItem_eq]

theorem parseItem_memo (env : Env) (vt : ValidTypes) (d : Option Raw) (s : PState) :
    (parseItem env vt d s).2.memo = pIMemo env vt d s.memo := by rw [parseItem_eq]

theorem parseArrayGo_fst (env : Env) (vt : ValidTypes) (l : List Raw) (s : PState) :
    (parseArrayGo env vt l s).1 = l.filterMap (fun x => pIRes env vt (some x)) := by
  induction l generalizing s with
  | nil => simp [parseArrayGo]
  | cons x xs ih =>
    simp only [parseArrayGo, parseItem_eq, List.filterMap_cons]
    cases hres : pIRes env vt (some x) with
    | none => simp [hres, ih]
    | some n => simp [hres, ih]

theorem parseArrayGo_errors (env : Env) (vt : ValidTypes) (l : List Raw) (s : PState) :
    (parseArrayGo env vt l s).2.errors =
      s.errors ++ (l.map (fun x => pIEvs env vt (some x))).flatten := by
  induction l generalizing s with
  | nil => simp [parseArrayGo]
  | cons x xs ih =>
    simp only [parseArrayGo, parseItem_eq, List.map_cons, List.flatten_cons]
    cases hres : pIRes env vt (some x) with
    | none => simp [hres, ih, List.append_assoc]
    | some n => simp [hres, ih, List.append_assoc]

/-! ## Memo lemmas -/

theorem memoGet_cons (e : String × List YTNode) (t : Memo) (k : String) :
    memoGet (e :: t) k = if e.1 == k then some e.2 else memoGet t k := by
  by_cases he : e.1 = k
  · simp [memoGet, he]
  · simp [memoGet, he]

theorem memoGet_map_self (m : Memo) (k : String) (v : List YTNode)
    (h : m.any (fun e => e.1 == k) = true) :
    memoGet (m.map (fun e => if e.1 == k then (k, v) else e)) k = some v := by
  induction m with
  | nil => simp at h
  | cons e t ih =>
    by_cases he : e.1 = k
    · simp [List.map_cons, he, memoGet_cons]
    · have hpe : (e.1 == k) = false := beq_eq_false_iff_ne.mpr he
      rw [List.any_cons, hpe, Bool.false_or] at h
      simp [List.map_cons, he, memoGet_cons]
      simpa using ih h

theorem memoGet_append_self (m : Memo) (k : String) (v : List YTNode)
    (h : m.any (fun e => e.1 == k) = false) :
    memoGet (m ++ [(k, v)]) k = some v := by
  induction m with
  | nil => simp [memoGet_cons, memoGet]
  | cons e t ih =>
    simp only [List.any_cons, Bool.or_eq_false_iff, beq_eq_false_iff_ne] at h
    simp [List.cons_append, memoGet_cons, h.1]
    exact ih (by simpa [beq_eq_false_iff_ne] using h.2)

theorem memoGet_memoSet_self (m : Memo) (k : String) (v : List YTNode) :
    memoGet (memoSet m k v) k = some v := by
  unfold memoSet
  cases hany : m.any (fun e => e.1 == k) with
  | true => simpa [hany] using memoGet_map_self m k v hany
  | false => simpa [hany] using memoGet_append_self m k v hany

theorem memoGet_map_ne (m : Memo) (k k' : String) (v : List YTNode) (h : k' ≠ k) :
    memoGet (m.map (fun e => if e.1 == k then (k, v) else e)) k' = memoGet m k' := by
  induction m with
  | nil => rfl
  | cons e t ih =>
    by_cases he : e.1 = k
    · simp [List.map_cons, he, memoGet_cons, Ne.symm h]
      simpa using ih
    · by_cases hk' : e.1 = k'
      · simp [List.map_cons, he, memoGet_cons, hk', h]
      · simp [List.map_cons, he, memoGet_cons, hk']
        simpa using ih

theorem memoGet_append_ne (m : Memo) (k k' : String) (v : List YTNode) (h : k' ≠ k) :
    memoGet (m ++ [(k, v)]) k' = memoGet m k' := by
  induction m with
  | nil => simp [memoGet_cons, memoGet, Ne.symm h]
  | cons e t ih => simp [List.cons_append, memoGet_cons, ih]

theorem memoGet_memoSet_ne (m : Memo) (k k' : String) (v : List YTNode)
    (h : k' ≠ k) :
    memoGet (memoSet m k v) k' = memoGet m k' := by
  unfold memoSet
  cases hany : m.any (fun e => e.1 == k) with
  | true => simpa [hany] using memoGet_map_ne m k k' v h
  | false => simpa [hany] using memoGet_append_ne m k k' v h

theorem keyNodes_memoMapNodes (m : Memo) (f : YTNode → YTNode) (k : String) :
    keyNodes (memoMapNodes m f) k = (keyNodes m k).map f := by
  unfold keyNodes memoMapNodes
  induction m with
  | nil => simp [memoGet]
  | cons e t ih =>
    by_cases he : e.1 = k
    · simp [List.map_cons, memoGet_cons, he]
    · simpa [List.map_cons, memoGet_cons, he] using ih

theorem updateMenuItem_nil (n : YTNode) : updateMenuItem [] n = n := by
  by_cases h : n.type_tag == "MusicMultiSelectMenuItem" <;>
    simp [updateMenuItem, findChoice, choiceValid, Raw.getO, truthyO, h]

theorem keyNodes_appendHeat (heat : List Raw) (m : Memo) :
    (keyNodes (appendHeatMapEntities m heat) "MacroMarkersListEntity" =
      keyNodes m "MacroMarkersListEntity" ++ heat.map mkMacroMarkersListEntity) ∧
    (∀ k, k ≠ "MacroMarkersListEntity" →
      keyNodes (appendHeatMapEntities m heat) k = keyNodes m k) := by
  induction heat generalizing m with
  | nil => simp [appendHeatMapEntities]
  | cons mu t ih =>
    have step :
        appendHeatMapEntities m (mu :: t) =
          appendHeatMapEntities
            (match memoGet m "MacroMarkersListEntity" with
             | none => memoSet m "MacroMarkersListEntity" [mkMacroMarkersListEntity mu]
             | some list =>
               memoSet m "MacroMarkersListEntity" (list ++ [mkMacroMarkersListEntity mu])) t := by
      unfold appendHeatMapEntities
      simp [List.foldl_cons]
    cases hg : memoGet m "MacroMarkersListEntity" with
    | none =>
      have h1 := (ih (memoSet m "MacroMarkersListEntity" [mkMacroMarkersListEntity mu])).1
      have h2 := (ih (memoSet m "MacroMarkersListEntity" [mkMacroMarkersListEntity mu])).2
      constructor
      · rw [step, hg, h1]
        unfold keyNodes
        rw [memoGet_memoSet_self, hg]
        simp
      · intro k hk
        rw [step, hg, h2 k hk]
        unfold keyNodes
        rw [memoGet_memoSet_ne _ _ _ _ hk]
    | some list =>
      have h1 := (ih (memoSet m "MacroMarkersListEntity"
        (list ++ [mkMacroMarkersListEntity mu]))).1
      have h2 := (ih (memoSet m "MacroMarkersListEntity"
        (list ++ [mkMacroMarkersListEntity mu]))).2
      constructor
      · rw [step, hg, h1]
        unfold keyNodes
        rw [memoGet_memoSet_self, hg]
        simp
      · intro k hk
        rw [step, hg, h2 k hk]
        unfold keyNodes
        rw [memoGet_memoSet_ne _ _ _ _ hk]

/-! ## Claim C5 — sanitization -/

/-- C5 (counterexample): sanitization is not idempotent.  The global
replace is a single left-to-right pass that never rescans its own output,
so removing `Model` from `ModModelel` manufactures a fresh `Model`, which
a second sanitization then removes. -/
theorem sanitizeClassName_not_idempotent :
    sanitizeClassName "ModModelel" = "Model" ∧
    sanitizeClassName (sanitizeClassName "ModModelel") = "" ∧
    sanitizeClassName (sanitizeClassName "ModModelel") ≠
      sanitizeClassName "ModModelel" := by
  refine ⟨by decide, by decide, by decide⟩

/-- C5 (amended): for every input the sanitizer equals the documented
algorithm (capitalize, one global `Renderer`/`Model` removal pass, one
global `Radio`→`Mix` pass, trim); and sanitization is idempotent exactly
on the strings each stage fixes — it is not idempotent in general
(`sanitizeClassName_not_idempotent`). -/
theorem sanitizeClassName_algorithm :
    (∀ k, sanitizeClassName k = sanitizeSpec k) ∧
    (∀ t, capFirst t = t →
      replaceGlobal [("Renderer", ""), ("Model", "")] t = t →
      replaceGlobal [("Radio", "Mix")] t = t →
      jsTrim t = t →
      sanitizeClassName t = t) := by
  constructor
  · intro k; rfl
  · intro t h1 h2 h3 h4
    unfold sanitizeClassName
    rw [h1, h2, h3, h4]

/-- Witness for `sanitizeClassName_algorithm` at the already-sanitized
name `Mix`. -/
theorem sanitizeClassName_algorithm_witness :
    (capFirst "Mix" = "Mix" ∧
     replaceGlobal [("Renderer", ""), ("Model", "")] "Mix" = "Mix" ∧
     replaceGlobal [("Radio", "Mix")] "Mix" = "Mix" ∧
     jsTrim "Mix" = "Mix") ∧
    sanitizeClassName "Mix" = "Mix" :=
  ⟨⟨by decide, by decide, by decide, by decide⟩,
   sanitizeClassName_algorithm.2 "Mix" (by decide) (by decide) (by decide) (by decide)⟩

/-! ## Claim C8 — `parse_item` never throws; `parse_array` shape contract -/

/-- C8: for every environment (so for every constructor and stub
behaviour, including always-throwing ones) an array input is returned
`ok` — the only throw `parseItem` could propagate is caught inside it —
an absent input yields an empty observed array, and a single wrapper
throws the shape-mismatch error. -/
theorem parseArray_shape_contract (env : Env) (vt : ValidTypes) (s : PState) :
    (∀ l, parseArray env vt (some (.arr l)) s = .ok (parseArrayGo env vt l s)) ∧
    parseArray env vt none s = .ok ([], s) ∧
    (∀ entries, parseArray env vt (some (.obj entries)) s =
      .error ("Expected array but got a single item", s)) :=
  ⟨fun _ => rfl, rfl, fun _ => rfl⟩

/-! ## Claim C10 — parsing without an active memo -/

/-- C10: with no active memo, `parseItem` returns exactly the node it
would return with one (and throws nothing), the recording step is
silently skipped (the memo stays absent and recording into an absent
memo is never an error), and only `_getMemo` throws its
`called before createMemo` error. -/
theorem parseItem_without_memo (env : Env) (vt : ValidTypes) (d : Option Raw)
    (errs : List ParserError) :
    parseItem env vt d { memo := none, errors := errs } =
      (pIRes env vt d, { memo := none, errors := errs ++ pIEvs env vt d }) ∧
    (∀ c n, memoRecord c n none = none) ∧
    getMemo { memo := none, errors := errs } =
      .error ("Parser#getMemo() called before Parser#createMemo()",
        { memo := none, errors := errs }) := by
  refine ⟨?_, fun c n => rfl, rfl⟩
  rw [parseItem_eq]
  have hm : pIMemo env vt d none = none := by
    unfold pIMemo
    cases pIRec env vt d with
    | none => rfl
    | some p => rfl
  simp [hm]

/-! ## Claim C2 — the comments mutation pass with absent mutations -/

/-- C2 (code bug): with at least one `CommentView` in the memo and an
absent mutations list, `applyCommentsMutations` emits the
`mutation_data_missing` event but then still dereferences the absent
list inside the loop (`mutations.find`), throwing a `TypeError` instead
of returning normally — the guard lacks the `else` its sibling
`applyMutations` has.  `parseResponse` calls it unconditionally, so the
whole response parse throws. -/
theorem applyCommentsMutations_missing_throws :
    applyCommentsMutations memoCV none {} =
      .error ("TypeError: Cannot read properties of undefined (reading 'find')",
        { errors := [.mutation_data_missing "CommentView"] }) := rfl

/-! ## Claim C6 — the `allowed_types` filter -/

theorem dispatchClass_memo (env : Env) (c : String) (b : Raw) (s : PState) :
    (dispatchClass env c b s).2.memo = s.memo := by
  unfold dispatchClass
  cases hr : env.registry c <;>
    cases hg : env.gen c b <;>
      simp [hasParser, getParserByName, hr, hg]

/-- C6 (counterexample): the dispatched tag `Video` is in the allowed set,
yet the node is not returned — the constructor throws, so the call yields
empty with one `parse` event.  This refutes the claim's universal "when
the tag is in the set, the node is returned". -/
theorem parseItem_allowed_tag_can_fail :
    "Video" ∈ ["Video"] ∧
    parseItem envThrowingVideo (.many ["Video"]) (some videoWrapper) {} =
      (none, { errors := [.parse "Video" (.obj [])] }) :=
  ⟨by decide, rfl⟩

/-- C6 (amended): the filter runs after dispatch, compares only `type`
tags, and on a mismatch returns empty with exactly one `typecheck` event
(carrying the sanitized class name and the expected tags) appended after
whatever the dispatch itself reported, without invoking the candidate
constructor (the equation holds for every constructor behaviour) and
without touching the memo; when the tag is allowed, no `typecheck` event
is emitted and the call reduces to plain construction — the node is
returned if (and only if) the constructor succeeds, a throw yielding
empty with one `parse` event instead. -/
theorem parseItem_typeFilter (env : Env) (ts : List String) (k0 : String) (v0 : Raw)
    (rest : List (String × Raw)) (s : PState) (tc : NodeCtor)
    (hig : shouldIgnore (sanitizeClassName k0) = false)
    (hdisp : (dispatchClass env (sanitizeClassName k0) v0 s).1 = .ok tc) :
    (tc.type ∉ ts →
      parseItem env (.many ts) (some (.obj ((k0, v0) :: rest))) s =
        (none, emit (dispatchClass env (sanitizeClassName k0) v0 s).2
          (.typecheck (sanitizeClassName k0) v0 (.many ts))) ∧
      (parseItem env (.many ts) (some (.obj ((k0, v0) :: rest))) s).2.memo = s.memo) ∧
    (tc.type ∈ ts →
      parseItem env (.many ts) (some (.obj ((k0, v0) :: rest))) s =
        (match tc.construct v0 with
         | .ok n => (some n,
             addToMemo (sanitizeClassName k0) n
               (dispatchClass env (sanitizeClassName k0) v0 s).2)
         | .error _ => (none,
             emit (dispatchClass env (sanitizeClassName k0) v0 s).2
               (.parse (sanitizeClassName k0) v0)))) := by
  cases hd : dispatchClass env (sanitizeClassName k0) v0 s with
  | mk r1 s1 =>
    rw [hd] at hdisp
    simp only at hdisp
    subst hdisp
    constructor
    · intro hnotin
      have hany : (ts.any fun t => t == tc.type) = false := by
        rw [Bool.eq_false_iff]
        intro hcontra
        rw [List.any_eq_true] at hcontra
        obtain ⟨x, hx, hbeq⟩ := hcontra
        rw [beq_iff_eq] at hbeq
        exact hnotin (hbeq ▸ hx)
      constructor
      · simp [parseItem, Raw.truthy, Raw.entriesOf, hig, hd, typeFilter, hany]
      · have hm := dispatchClass_memo env (sanitizeClassName k0) v0 s
        rw [hd] at hm
        simp only at hm
        simp [parseItem, Raw.truthy, Raw.entriesOf, hig, hd, typeFilter, hany, emit, hm]
    · intro hin
      have hany : (ts.any fun t => t == tc.type) = true :=
        List.any_eq_true.mpr ⟨tc.type, hin, by simp⟩
      cases hc : tc.construct v0 with
      | ok n =>
        simp [parseItem, Raw.truthy, Raw.entriesOf, hig, hd, typeFilter, hany, hc]
      | error e =>
        simp [parseItem, Raw.truthy, Raw.entriesOf, hig, hd, typeFilter, hany, hc]

/-- Witness for `parseItem_typeFilter`: a registered `Shelf` dispatched
against allowed tags `[Video]` yields empty plus one typecheck event. -/
theorem parseItem_typeFilter_witness :
    (shouldIgnore (sanitizeClassName "shelf") = false ∧
     (dispatchClass envMixed (sanitizeClassName "shelf") (.obj []) {}).1 =
       .ok { type := "Shelf", construct := fun _ => .ok { type_tag := "Shelf" } } ∧
     "Shelf" ∉ ["Video"]) ∧
    parseItem envMixed (.many ["Video"]) (some (.obj [("shelf", .obj [])])) {} =
      (none, emit (dispatchClass envMixed (sanitizeClassName "shelf") (.obj []) {}).2
        (.typecheck (sanitizeClassName "shelf") (.obj []) (.many ["Video"]))) :=
  ⟨⟨by decide, rfl, by decide⟩,
   ((parseItem_typeFilter envMixed ["Video"] "shelf" (.obj []) [] {}
      { type := "Shelf", construct := fun _ => .ok { type_tag := "Shelf" } }
      (by decide) rfl).1 (by decide)).1⟩

/-! ## Claim C3 — the MusicMultiSelectMenuItem mutation pass -/

/-- C3: with mutations absent and at least one multi-select item in the
memo, exactly one `mutation_data_missing` is emitted and the memo is
untouched; with mutations present, every multi-select node is updated
in place through `updateMenuItem` (first mutation whose
`payload.musicFormBooleanChoice.id` equals the node's
`form_item_entity_key`; `selected` is set when that choice has a defined
`selected` and a truthy `opaqueToken`), and the nodes without a valid
matching choice contribute their (quoted) titles to at most one
aggregated `mutation_data_invalid` event carrying the total count,
failed count and failed titles. -/
theorem applyMutations_multiSelect (memo : Memo) (s : PState) :
    (0 < (memoGetType memo "MusicMultiSelectMenuItem").length →
      applyMutations memo none s =
        (memo, emit s (.mutation_data_missing "MusicMultiSelectMenuItem"))) ∧
    (∀ l, applyMutations memo (some l) s =
      (appendHeatMapEntities (memoMapNodes memo (updateMenuItem l))
         (l.filter isHeatMapMutation),
       if 0 < (invalidTitles memo l).length then
         emit s (.mutation_data_invalid
           (memoGetType memo "MusicMultiSelectMenuItem").length
           (invalidTitles memo l).length (invalidTitles memo l))
       else s)) ∧
    (∀ l n, n.type_tag = "MusicMultiSelectMenuItem" →
      (choiceValid (findChoice l n.form_item_entity_key) = true →
        updateMenuItem l n =
          { n with selected := Raw.getO (findChoice l n.form_item_entity_key) "selected" }) ∧
      (choiceValid (findChoice l n.form_item_entity_key) = false →
        updateMenuItem l n = n)) := by
  refine ⟨?_, ?_, ?_⟩
  · intro h
    simp [applyMutations, h]
  · intro l
    simp only [applyMutations, Option.isNone_some, Bool.and_false, Bool.false_eq_true,
      if_false, Option.getD_some]
  · intro l n htag
    constructor <;> intro hv <;> simp [updateMenuItem, htag, hv]

/-- Witness for `applyMutations_multiSelect`, mirroring the spec's
`{M1, M2}` example: `M1` has a valid matching choice and is updated,
`M2` has none and its quoted title appears in the aggregated report. -/
theorem applyMutations_multiSelect_witness :
    (0 < (memoGetType memoMS "MusicMultiSelectMenuItem").length ∧
     applyMutations memoMS none {} =
       (memoMS, emit {} (.mutation_data_missing "MusicMultiSelectMenuItem"))) ∧
    applyMutations memoMS (some [choiceMutK1]) {} =
      (appendHeatMapEntities (memoMapNodes memoMS (updateMenuItem [choiceMutK1]))
         ([choiceMutK1].filter isHeatMapMutation),
       if 0 < (invalidTitles memoMS [choiceMutK1]).length then
         emit {} (.mutation_data_invalid
           (memoGetType memoMS "MusicMultiSelectMenuItem").length
           (invalidTitles memoMS [choiceMutK1]).length (invalidTitles memoMS [choiceMutK1]))
       else {}) ∧
    invalidTitles memoMS [choiceMutK1] = [quoteTitle "M2"] ∧
    updateMenuItem [choiceMutK1] m1Node = { m1Node with selected := some (.bool true) } :=
  ⟨⟨by decide, (applyMutations_multiSelect memoMS {}).1 (by decide)⟩,
   (applyMutations_multiSelect memoMS {}).2.1 [choiceMutK1],
   by decide,
   rfl⟩

/-! ## Claim C4 — the heat-map pass is the only memo-growing pass -/

/-- C4: after `applyMutations`, the list under `MacroMarkersListEntity` is
the (in-place updated) old list extended by exactly one constructed
entity per heat-map mutation (the list is created when absent); every
other class's node count is unchanged, and the comments pass never
changes any count — so heat-map mutations are the only way a mutation
pass adds nodes to a memo, and all other mutations add nothing. -/
theorem applyMutations_heatMapOnly (memo : Memo) (muts : Option (List Raw)) (s : PState) :
    keyNodes (applyMutations memo muts s).1 "MacroMarkersListEntity" =
      (keyNodes memo "MacroMarkersListEntity").map (updateMenuItem (muts.getD []))
        ++ (heatMapMutations muts).map mkMacroMarkersListEntity ∧
    (∀ k, k ≠ "MacroMarkersListEntity" →
      (keyNodes (applyMutations memo muts s).1 k).length = (keyNodes memo k).length) ∧
    (∀ l k, (keyNodes (memoMapNodes memo (updateCommentView l)) k).length =
      (keyNodes memo k).length) := by
  have hid : updateMenuItem [] = id := funext updateMenuItem_nil
  refine ⟨?_, ?_, ?_⟩
  · cases muts with
    | none =>
      simp only [heatMapMutations, Option.getD_none, List.map_nil, List.append_nil, hid,
        List.map_id]
      by_cases hlen : 0 < (memoGetType memo "MusicMultiSelectMenuItem").length
      · simp [applyMutations, hlen]
      · simp [applyMutations, hlen, hid, keyNodes_memoMapNodes]
    | some l =>
      simp only [applyMutations, Option.isNone_some, Bool.and_false, Bool.false_eq_true,
        if_false, Option.getD_some, heatMapMutations]
      rw [(keyNodes_appendHeat (l.filter isHeatMapMutation)
            (memoMapNodes memo (updateMenuItem l))).1,
         keyNodes_memoMapNodes]
  · intro k hk
    cases muts with
    | none =>
      by_cases hlen : 0 < (memoGetType memo "MusicMultiSelectMenuItem").length
      · simp [applyMutations, hlen]
      · simp [applyMutations, hlen, keyNodes_memoMapNodes]
    | some l =>
      simp only [applyMutations, Option.isNone_some, Bool.and_false, Bool.false_eq_true,
        if_false, Option.getD_some]
      rw [(keyNodes_appendHeat (l.filter isHeatMapMutation)
            (memoMapNodes memo (updateMenuItem l))).2 k hk,
         keyNodes_memoMapNodes]
      simp
  · intro l k
    rw [keyNodes_memoMapNodes]
    simp

/-- Witness for `applyMutations_heatMapOnly`: one heat-map mutation adds
one `MacroMarkersListEntity` node to a memo with no such list, and the
multi-select class's count is untouched. -/
theorem applyMutations_heatMapOnly_witness :
    keyNodes (applyMutations memoMS (some [heatMut]) {}).1 "MacroMarkersListEntity" =
      (keyNodes memoMS "MacroMarkersListEntity").map (updateMenuItem [heatMut])
        ++ (heatMapMutations (some [heatMut])).map mkMacroMarkersListEntity ∧
    ("MusicMultiSelectMenuItem" ≠ "MacroMarkersListEntity" ∧
     (keyNodes (applyMutations memoMS (some [heatMut]) {}).1
        "MusicMultiSelectMenuItem").length =
       (keyNodes memoMS "MusicMultiSelectMenuItem").length) :=
  ⟨(applyMutations_heatMapOnly memoMS (some [heatMut]) {}).1,
   ⟨by decide, (applyMutations_heatMapOnly memoMS (some [heatMut]) {}).2.1 _ (by decide)⟩⟩

/-! ## Claim C7 — one throwing constructor does not sink `parseArray` -/

theorem countParse_append (a b : List ParserError) :
    countParseEvents (a ++ b) = countParseEvents a + countParseEvents b := by
  simp [countParseEvents, List.filter_append]

theorem filterMap_allSome_length {α β : Type} (f : α → Option β) (l : List α)
    (h : ∀ x ∈ l, (f x).isSome = true) : (l.filterMap f).length = l.length := by
  induction l with
  | nil => rfl
  | cons x xs ih =>
    have hx := h x (List.mem_cons_self x xs)
    cases hfx : f x with
    | none => rw [hfx] at hx; simp at hx
    | some b =>
      simp [List.filterMap_cons, hfx,
        ih (fun y hy => h y (List.mem_cons_of_mem _ hy))]

theorem countParse_flatten_zero (f : Raw → List ParserError) (l : List Raw)
    (h : ∀ x ∈ l, countParseEvents (f x) = 0) :
    countParseEvents ((l.map f).flatten) = 0 := by
  induction l with
  | nil => rfl
  | cons x xs ih =>
    rw [List.map_cons, List.flatten_cons, countParse_append,
      h x (List.mem_cons_self x xs),
      ih (fun y hy => h y (List.mem_cons_of_mem _ hy))]

/-- C7: when every element of `pre` and `suf` parses to a node without
`parse` events and the constructor of `bad` throws (empty result, one
`parse` event), `parseArray` on `pre ++ bad :: suf` does not throw, its
observed array is exactly the parsed nodes of the other elements in
source order (one node per element), and exactly one `parse` event is
added to the log. -/
theorem parseArray_singleThrow (env : Env) (vt : ValidTypes) (pre suf : List Raw)
    (bad : Raw) (s : PState)
    (hpre : ∀ x ∈ pre, (pIRes env vt (some x)).isSome = true ∧
      countParseEvents (pIEvs env vt (some x)) = 0)
    (hsuf : ∀ x ∈ suf, (pIRes env vt (some x)).isSome = true ∧
      countParseEvents (pIEvs env vt (some x)) = 0)
    (hbad : (pIRes env vt (some bad)).isNone = true ∧
      countParseEvents (pIEvs env vt (some bad)) = 1) :
    parseArray env vt (some (.arr (pre ++ bad :: suf))) s =
      .ok (parseArrayGo env vt (pre ++ bad :: suf) s) ∧
    (parseArrayGo env vt (pre ++ bad :: suf) s).1 =
      pre.filterMap (fun x => pIRes env vt (some x)) ++
        suf.filterMap (fun x => pIRes env vt (some x)) ∧
    (pre.filterMap (fun x => pIRes env vt (some x))).length = pre.length ∧
    (suf.filterMap (fun x => pIRes env vt (some x))).length = suf.length ∧
    countParseEvents (parseArrayGo env vt (pre ++ bad :: suf) s).2.errors =
      countParseEvents s.errors + 1 := by
  refine ⟨rfl, ?_, ?_, ?_, ?_⟩
  · rw [parseArrayGo_fst, List.filterMap_append, List.filterMap_cons,
      Option.isNone_iff_eq_none.mp hbad.1]
  · exact filterMap_allSome_length _ pre (fun x hx => (hpre x hx).1)
  · exact filterMap_allSome_length _ suf (fun x hx => (hsuf x hx).1)
  · rw [parseArrayGo_errors, countParse_append, List.map_append, List.map_cons,
      List.flatten_append, List.flatten_cons, countParse_append, countParse_append,
      countParse_flatten_zero _ pre (fun x hx => (hpre x hx).2),
      countParse_flatten_zero _ suf (fun x hx => (hsuf x hx).2), hbad.2]

/-- Witness for `parseArray_singleThrow`: `[video, boom, video]` where
`Boom`'s constructor throws. -/
theorem parseArray_singleThrow_witness :
    ((∀ x ∈ [videoWrapper], (pIRes envMixed .anyType (some x)).isSome = true ∧
        countParseEvents (pIEvs envMixed .anyType (some x)) = 0) ∧
     (pIRes envMixed .anyType (some boomWrapper)).isNone = true ∧
     countParseEvents (pIEvs envMixed .anyType (some boomWrapper)) = 1) ∧
    countParseEvents
        (parseArrayGo envMixed .anyType ([videoWrapper] ++ boomWrapper :: [videoWrapper])
          {}).2.errors =
      countParseEvents ({} : PState).errors + 1 :=
  ⟨⟨by decide, by decide, by decide⟩,
   (parseArray_singleThrow envMixed .anyType [videoWrapper] [videoWrapper] boomWrapper {}
     (by decide) (by decide) (by decide)).2.2.2.2⟩

/-! ## Claim C1 — the `parseCommand` key scan -/

/-- C1 (counterexample): `fooCommand` is registered and its constructor
throws; the claim says exactly one parse event is emitted and the result
is empty with no later sibling dispatched — but the scan continues and
dispatches the later `barCommand` key, returning its node alongside the
emitted event. -/
theorem parseCommand_continues_after_throw :
    parseCommand envTwoCommands dataTwoCommands {} =
      (some nodeBar, { errors := [.parse "FooCommand" (.obj [])] }) := rfl

theorem parseCommandGo_eq_scan (env : Env) (entries : List (String × Raw)) (s : PState) :
    parseCommandGo env entries s =
      ((scanCommands env entries).1,
       { s with errors := s.errors ++ (scanCommands env entries).2 }) := by
  induction entries generalizing s with
  | nil => simp [parseCommandGo, scanCommands]
  | cons kv rest ih =>
    obtain ⟨k, v⟩ := kv
    by_cases hck : isCommandKey k = true
    · by_cases hig : shouldIgnore (sanitizeClassName k) = true
      · simp [parseCommandGo, scanCommands, commandStep, hck, hig]
      · cases hreg : env.registry (sanitizeClassName k) with
        | none =>
          simp [parseCommandGo, scanCommands, commandStep, hck, hig, hreg,
            hasParser, ih]
        | some tc =>
          cases hc : tc.construct v with
          | ok n =>
            simp [parseCommandGo, scanCommands, commandStep, hck, hig, hreg,
              hasParser, getParserByName, hc]
          | error e =>
            simp [parseCommandGo, scanCommands, commandStep, hck, hig, hreg,
              hasParser, getParserByName, hc, ih, emit, List.append_assoc]
    · simp [parseCommandGo, scanCommands, commandStep, hck, ih]

/-! ## Claim C9 — response re-entry does not corrupt the outer memos -/

/-- C9: the source performs the recursive `playerResponse` /
`watchNextResponse` parses only after every outer memo section has been
created, read and cleared, so the outer section record `p0` — its memos
included — is the same whether or not a response is nested (no node of
the inner document reaches an outer memo), and the nested parse appears
as `player_response` with its own memos, parsed exactly as a standalone
response from the state the outer sections left behind. -/
theorem parseResponse_reentrancy (env : Env) (core : RawCore) (inner : RawResponse)
    (s s0 sI : PState) (p0 : ParsedCore) (pI : ParsedResponse)
    (hcore : parseResponseCore env core s = .ok (p0, s0))
    (hinner : parseResponse env inner s0 = .ok (pI, sI)) :
    parseResponse env (.mk core (some inner) none) s = .ok (.mk p0 (some pI) none, sI) ∧
    parseResponse env (.mk core none none) s = .ok (.mk p0 none none, s0) := by
  constructor
  · simp only [parseResponse, parseResponseOpt, hcore, hinner]
  · simp only [parseResponse, parseResponseOpt, hcore]

/-- Witness for `parseResponse_reentrancy`: an empty outer document
nesting an empty `playerResponse`. -/
theorem parseResponse_reentrancy_witness :
    (parseResponseCore envNull ({} : RawCore) {} = .ok ({}, {}) ∧
     parseResponse envNull (.mk {} none none) {} = .ok (.mk {} none none, {})) ∧
    parseResponse envNull (.mk {} (some (.mk {} none none)) none) {} =
        .ok (.mk {} (some (.mk {} none none)) none, {}) ∧
    parseResponse envNull (.mk {} none none) {} = .ok (.mk {} none none, {}) :=
  ⟨⟨rfl, rfl⟩,
   parseResponse_reentrancy envNull {} (.mk {} none none) {} {} {} {} (.mk {} none none)
     rfl rfl⟩

/-- C1 (amended): `parseCommand` scans the keys in declared order and is
the scan contract `scanCommands`: the first action-suffixed key whose
class is ignored stops the scan with an empty result and no event; the
first action-suffixed key whose registered constructor succeeds stops it
with that node; an action-suffixed key whose registered constructor
throws emits one parse event and the scan continues with later sibling
keys; unregistered action-suffixed keys (no stub synthesis, no event) and
non-matching keys are skipped; if nothing stops the scan the result is
empty. -/
theorem parseCommand_eq_scan (env : Env) (data : Raw) (s : PState) :
    parseCommand env data s =
      ((scanCommands env data.entriesOf).1,
       { s with errors := s.errors ++ (scanCommands env data.entriesOf).2 }) :=
  parseCommandGo_eq_scan env data.entriesOf s

end YTParser
